import Mathlib

/-!
Shallow embedding of the `rust-nes-emulator` core (6502 CPU, Bus, iNES
cartridge loader) and proofs about it.

Conventions of the embedding:
* machine integers (`u8`, `u16`) become `Nat` with explicit `% 256` /
  `% 65536` wherever the Rust code wraps, and bitwise operators `&&&`,
  `|||`, `^^^`, `<<<`, `>>>` wherever the Rust code uses `&`, `|`, `^`,
  `<<`, `>>`;
* Rust code that can panic (`todo!`, `panic!`, out-of-bounds indexing or
  slicing, `u16` reads past the address space) is modelled in `Option`,
  with `none` standing for the panic;
* `Vec<u8>` becomes `List Nat`; the fixed 2KB RAM array becomes a
  function `Nat → Nat` indexed by the already-masked physical index.
-/

namespace NES

/-- Status-flag bit masks, from `cpu/status_flags.rs` (`bitflags!`). -/
def FlagC : Nat := 0x01

/-- Zero flag bit (bit 1). -/
def FlagZ : Nat := 0x02

/-- Interrupt-disable flag bit (bit 2). -/
def FlagI : Nat := 0x04

/-- Decimal flag bit (bit 3). -/
def FlagD : Nat := 0x08

/-- Break flag bit (bit 4). -/
def FlagB : Nat := 0x10

/-- Unused/ignored flag bit (bit 5). -/
def FlagU : Nat := 0x20

/-- Overflow flag bit (bit 6). -/
def FlagV : Nat := 0x40

/-- Negative flag bit (bit 7). -/
def FlagN : Nat := 0x80

/-- bitflags `contains`: all bits of `flag` are present in `bits`. -/
def flagContains (bits flag : Nat) : Bool := bits &&& flag = flag

/-- bitflags `set(flag, v)`: insert the flag when `v`, remove it otherwise
(removal is a masked and with the byte-complement of the flag). -/
def flagSet (bits flag : Nat) (v : Bool) : Nat :=
  if v then bits ||| flag else bits &&& (255 ^^^ flag)

/-- Register file, from `cpu/register.rs` (`struct Registers`).  All fields
are bytes except the 16-bit `program_counter`; `status` is the packed flag
byte (every one of the 8 bits is a defined flag, so Rust's
`from_bits_truncate` and `from_bits` keep a byte unchanged). -/
structure Registers where
  a : Nat
  x : Nat
  y : Nat
  status : Nat
  stack_pointer : Nat
  program_counter : Nat
deriving DecidableEq, Repr

/-- Constructor `Registers::new` (power-on value): note status `0x34` and
stack pointer `0x00`. -/
def Registers.new : Registers :=
  { a := 0x00, x := 0x00, y := 0x00
    status := 0x34, stack_pointer := 0x00, program_counter := 0x0000 }

/-- Re-initialisation `Registers::reset(program_counter)`: status `0x24`,
stack pointer `0xFD`, PC from the caller. -/
def Registers.reset (_r : Registers) (program_counter : Nat) : Registers :=
  { a := 0x00, x := 0x00, y := 0x00
    status := 0x24, stack_pointer := 0xFD, program_counter := program_counter }

/-- Helper `Registers::set_nz_flags(result)`. -/
def Registers.set_nz_flags (r : Registers) (result : Nat) : Registers :=
  let st := flagSet (flagSet r.status FlagZ (result == 0)) FlagN ((result &&& 0x80) == 0x80)
  { r with status := st }

/-- Core adder `Registers::add_to_a(data)`: widen to 16 bits, add the carry
flag, truncate the sum to a byte, set C from the 16-bit sum, set V from
`(data ^ result) & (old_a ^ result) & 0x80 != 0` (the accumulator is still
the old value at that point), then store the result and set N/Z. -/
def Registers.add_to_a (r : Registers) (data : Nat) : Registers :=
  let a := r.a
  let sum := a + data + (if flagContains r.status FlagC then 1 else 0)
  let result := sum % 256
  let st := flagSet r.status FlagC (decide (sum > 0xFF))
  let st := flagSet st FlagV (decide ((data ^^^ result) &&& (r.a ^^^ result) &&& 0x80 ≠ 0))
  let r := { r with status := st, a := result }
  r.set_nz_flags r.a

/-- Modelled from the spec: the three-valued nametable-mirroring enum.  The
file `cartridge/mirroring.rs` is not among the sources; the spec lists the
variants Horizontal, Vertical and FourScreen. -/
inductive Mirroring where
  | horizontal
  | vertical
  | fourScreen
deriving DecidableEq, Repr

/-- Mirroring decision from `Cartridge::new` (`cartridge/mod.rs`), verbatim:
the scrutinee is the pair `(raw[6] & 0x08 == 0x80, raw[6] & 0x01 == 0x01)`.
Note the first component compares a value masked with `0x08` against
`0x80`. -/
def resolveMirroring (byte6 : Nat) : Mirroring :=
  match (byte6 &&& 0x08 == 0x80), (byte6 &&& 0x01 == 0x01) with
  | false, false => Mirroring.horizontal
  | false, true => Mirroring.vertical
  | true, _ => Mirroring.fourScreen

/-- Cartridge record, from `cartridge/mod.rs`. -/
structure Cartridge where
  mapper : Nat
  prg_rom : List Nat
  chr_rom : List Nat
  nametable_mirroring : Mirroring
deriving DecidableEq, Repr

/-- iNES magic bytes `MAGIC_NUMBERS`. -/
def MAGIC_NUMBERS : List Nat := [0x4E, 0x45, 0x53, 0x1A]

/-- Loader `Cartridge::new(raw)`.  `some (.error s)` is the Rust `Err(s)`,
`some (.ok c)` is `Ok(c)`, and `none` is a panic: Rust's `&raw[0..4]`
panics when `raw` has fewer than 4 bytes, `raw[7]` panics when it has
fewer than 8, and the two `to_vec` slices panic when the image is shorter
than the declared ROM sizes require. -/
def Cartridge.new (raw : List Nat) : Option (Except String Cartridge) :=
  if raw.length < 4 then none
  else if raw.take 4 ≠ MAGIC_NUMBERS then
    some (Except.error "File is not in iNES file format")
  else if raw.length < 8 then none
  else if ((raw.getD 7 0) >>> 2) &&& 0x03 ≠ 0 then
    some (Except.error "NES 2.0 format is not supported")
  else
    let mapper := ((raw.getD 7 0) &&& 0xF0) ||| ((raw.getD 6 0) >>> 4)
    let mirroring := resolveMirroring (raw.getD 6 0)
    let has_trainer := (raw.getD 6 0) &&& 0x04 == 0x04
    let prg_rom_start := 16 + if has_trainer then 512 else 0
    let prg_rom_size := (raw.getD 4 0) * 16384
    if raw.length < prg_rom_start + prg_rom_size then none
    else
      let prg_rom := (raw.drop prg_rom_start).take prg_rom_size
      let chr_rom_start := prg_rom_start + prg_rom_size
      let chr_rom_size := (raw.getD 5 0) * 8192
      if raw.length < chr_rom_start + chr_rom_size then none
      else
        some (Except.ok
          { mapper := mapper, prg_rom := prg_rom
            chr_rom := (raw.drop chr_rom_start).take chr_rom_size
            nametable_mirroring := mirroring })

/-- Bus, from `bus/mod.rs`: the 2KB internal RAM (`cpu_vram : [u8; 0x800]`,
modelled as a function on the physical index) plus the cartridge. -/
structure Bus where
  cpu_vram : Nat → Nat
  cartridge : Cartridge

/-- Memory-map read `Bus::read(address)`, for `address` a `u16` value
(callers supply `address < 0x10000`; larger values mean the `u16` could
not have held the address, so the guard returns `none`).  The todo-arm for
the PPU range and an out-of-range PRG ROM index are panics (`none`); any
address the match ignores prints a message and reads `0`. -/
def Bus.read (b : Bus) (address : Nat) : Option Nat :=
  if address ≥ 0x10000 then none
  else if address ≤ 0x1FFF then some (b.cpu_vram (address &&& 0x7FF))
  else if address ≤ 0x3FFF then none
  else if address ≥ 0x8000 then
    let address := if b.cartridge.prg_rom.length = 0x4000 then address &&& 0xBFFF else address
    b.cartridge.prg_rom.get? (address &&& 0x7FFF)
  else some 0

/-- Memory-map write `Bus::write(address, data)`: RAM writes update the
masked cell, the PPU range is a todo-panic, a write into `0x8000..=0xFFFF`
is the fatal `panic!("Attempt to write to Cartridge ROM space")`, and
ignored ranges are a no-op. -/
def Bus.write (b : Bus) (address data : Nat) : Option Bus :=
  if address ≥ 0x10000 then none
  else if address ≤ 0x1FFF then
    some { b with cpu_vram := fun i => if i = address &&& 0x7FF then data else b.cpu_vram i }
  else if address ≤ 0x3FFF then none
  else if address ≥ 0x8000 then none
  else some b

/-- Little-endian 16-bit read `Bus::read_u16(address)`. -/
def Bus.read_u16 (b : Bus) (address : Nat) : Option Nat := do
  let lo ← b.read address
  let hi ← b.read (address + 1)
  return (hi <<< 8) ||| lo

/-- Little-endian 16-bit write `Bus::write_u16(address, data)`. -/
def Bus.write_u16 (b : Bus) (address data : Nat) : Option Bus := do
  let b ← b.write address (data &&& 0x00FF)
  b.write (address + 1) (data >>> 8)

/-- Addressing modes, from `cpu/addressing_mode.rs` (the commented-out
`Relative` variant is omitted there too). -/
inductive AddressingMode where
  | Absolute
  | ZeroPage
  | ZeroPageX
  | ZeroPageY
  | AbsoluteX
  | AbsoluteY
  | Immediate
  | Implicit
  | Indirect
  | IndexedIndirect
  | IndirectIndexed
deriving DecidableEq, Repr

/-- CPU state, from `cpu/mod.rs`: the bus plus the register file. -/
structure CPU where
  bus : Bus
  registers : Registers

/-- Constructor `CPU::new(bus)`. -/
def CPU.new (bus : Bus) : CPU := { bus := bus, registers := Registers.new }

/-- Effective-address computation `CPU::get_absolute_address(mode, address)`.
The `Indirect` arm reproduces the 6502 page-boundary quirk: a pointer whose
low byte is `0xFF` takes its high byte from the start of the same page.
`Immediate`/`Implicit` hit the source's `panic!` arm. -/
def CPU.get_absolute_address (c : CPU) (mode : AddressingMode) (address : Nat) : Option Nat :=
  match mode with
  | .Absolute => c.bus.read_u16 address
  | .AbsoluteX => (c.bus.read_u16 address).map (fun v => (v + c.registers.x) % 65536)
  | .AbsoluteY => (c.bus.read_u16 address).map (fun v => (v + c.registers.y) % 65536)
  | .ZeroPage => c.bus.read address
  | .ZeroPageX => (c.bus.read address).map (fun v => (v + c.registers.x) % 256)
  | .ZeroPageY => (c.bus.read address).map (fun v => (v + c.registers.y) % 256)
  | .Indirect => do
      let indirect_address ← c.bus.read_u16 address
      if indirect_address &&& 0x00FF = 0x00FF then
        let lo ← c.bus.read indirect_address
        let hi ← c.bus.read (indirect_address &&& 0xFF00)
        return (hi <<< 8) ||| lo
      else
        c.bus.read_u16 indirect_address
  | .IndexedIndirect => do
      let p ← c.bus.read address
      let pointer := (p + c.registers.x) % 256
      let lo ← c.bus.read pointer
      let hi ← c.bus.read ((pointer + 1) % 256)
      return (hi <<< 8) ||| lo
  | .IndirectIndexed => do
      let param ← c.bus.read address
      let lo ← c.bus.read param
      let hi ← c.bus.read ((param + 1) % 256)
      let indirect_address := (hi <<< 8) ||| lo
      return (indirect_address + c.registers.y) % 65536
  | .Immediate => none
  | .Implicit => none

/-- Operand-address selection `CPU::get_operand_address(mode)`. -/
def CPU.get_operand_address (c : CPU) (mode : AddressingMode) : Option Nat :=
  match mode with
  | .Immediate => some c.registers.program_counter
  | _ => c.get_absolute_address mode c.registers.program_counter

/-- Stack push `CPU::stack_push(data)`: write at `0x0100 + SP`, then
decrement SP with byte wrap-around. -/
def CPU.stack_push (c : CPU) (data : Nat) : Option CPU := do
  let b ← c.bus.write (0x0100 + c.registers.stack_pointer) data
  let regs := { c.registers with stack_pointer := (c.registers.stack_pointer + 255) % 256 }
  return { c with bus := b, registers := regs }

/-- Stack pop `CPU::stack_pop()`: increment SP with byte wrap-around, then
read at `0x0100 + SP`. -/
def CPU.stack_pop (c : CPU) : Option (Nat × CPU) :=
  let sp := (c.registers.stack_pointer + 1) % 256
  let c := { c with registers := { c.registers with stack_pointer := sp } }
  (c.bus.read (0x0100 + sp)).map (fun d => (d, c))

/-- 16-bit push `CPU::stack_push_u16(data)`: high byte first, then low. -/
def CPU.stack_push_u16 (c : CPU) (data : Nat) : Option CPU := do
  let c ← c.stack_push (data >>> 8)
  c.stack_push (data &&& 0xFF)

/-- 16-bit pop `CPU::stack_pop_u16()`: low byte first, then high. -/
def CPU.stack_pop_u16 (c : CPU) : Option (Nat × CPU) := do
  let (lo, c) ← c.stack_pop
  let (hi, c) ← c.stack_pop
  return ((hi <<< 8) ||| lo, c)

/-- JSR body `CPU::jump_to_new_location_saving_return_address()`, called
with PC already past the opcode byte: push `PC + 2 - 1` (a `u16` addition,
so reduced mod 65536 as in release builds), then read the absolute operand
and jump to it.  The pushes happen before the operand read, as in the
source. -/
def CPU.jump_to_new_location_saving_return_address (c : CPU) : Option CPU := do
  let c ← c.stack_push_u16 ((c.registers.program_counter + 2 - 1) % 65536)
  let address ← c.get_operand_address AddressingMode.Absolute
  return { c with registers := { c.registers with program_counter := address } }

/-- RTS body `CPU::return_from_subroutine()`: pop a 16-bit value and add 1
(`u16` addition, reduced mod 65536). -/
def CPU.return_from_subroutine (c : CPU) : Option CPU := do
  let (v, c) ← c.stack_pop_u16
  return { c with registers := { c.registers with program_counter := (v + 1) % 65536 } }

/-- Modelled from the spec: the per-opcode instruction byte lengths come
from the static opcode table in `cpu/opcodes.rs`, which is not among the
sources.  The spec fixes JSR (0x20) at 3 bytes and RTS (0x60), an implied
instruction, at 1 byte; other opcodes are not needed here (`none` stands
for a missing table entry, which the run loop treats as fatal). -/
def opcodeLength (code : Nat) : Option Nat :=
  if code = 0x20 then some 3
  else if code = 0x60 then some 1
  else none

/-- One iteration of the run loop `CPU::run_with_callback` restricted to
the JSR and RTS opcodes: fetch the opcode at PC, increment PC, remember it,
dispatch, and afterwards advance PC by `length - 1` only when the handler
left PC untouched.  Opcodes other than 0x20/0x60 are out of scope of this
embedding (`none`). -/
def CPU.stepOne (c : CPU) : Option CPU := do
  let code ← c.bus.read c.registers.program_counter
  let c := { c with registers := { c.registers with
               program_counter := (c.registers.program_counter + 1) % 65536 } }
  let program_counter_state := c.registers.program_counter
  let len ← opcodeLength code
  let c ← if code = 0x20 then c.jump_to_new_location_saving_return_address
          else if code = 0x60 then c.return_from_subroutine
          else none
  if program_counter_state = c.registers.program_counter then
    return { c with registers := { c.registers with
               program_counter := (c.registers.program_counter + (len - 1)) % 65536 } }
  else
    return c

/-- Program loader `CPU::load(program)`: copy the bytes to `0x0600 + i`
through the bus (the loop index is a `u16`, so the bound is the program
length reduced mod 65536 and the target address wraps), then write the
16-bit reset vector `0x0600` at `0xFFFC` through the bus. -/
def CPU.load (c : CPU) (program : List Nat) : Option CPU := do
  let c ← (List.range (program.length % 65536)).foldlM
    (fun (c : CPU) i => do
      let b ← c.bus.write ((0x0600 + i) % 65536) (program.getD i 0)
      return { c with bus := b })
    c
  let b ← c.bus.write_u16 0xFFFC 0x0600
  return { c with bus := b }

/-- Reset `CPU::reset()`: re-initialise the registers with the PC taken
from the 16-bit reset vector at `0xFFFC`, read through the bus. -/
def CPU.reset (c : CPU) : Option CPU :=
  (c.bus.read_u16 0xFFFC).map
    (fun pc => { c with registers := c.registers.reset pc })

/-- Operand transformation performed by the SBC body
`CPU::subtract_memory_from_accumulator_with_borrow` before calling
`add_to_a`: the Rust expression `(data as i8).wrapping_neg().wrapping_sub(1)
as u8`, i.e. two's-complement negation mod 256 followed by a wrapping
decrement. -/
def sbcOperand (data : Nat) : Nat := ((256 - data % 256) % 256 + 255) % 256

/-- SBC body after the operand fetch: `add_to_a` applied to the transformed
operand. -/
def Registers.subtract_with_borrow (r : Registers) (data : Nat) : Registers :=
  r.add_to_a (sbcOperand data)

/-- Sample empty cartridge, used to instantiate theorems on concrete
states. -/
def sampleCartridge : Cartridge :=
  { mapper := 0, prg_rom := [], chr_rom := [], nametable_mirroring := Mirroring.horizontal }

/-- Sample bus with zeroed RAM and the empty cartridge. -/
def sampleBus : Bus := { cpu_vram := fun _ => 0, cartridge := sampleCartridge }

/-- Sample 16KB cartridge whose PRG ROM is `0x34` everywhere, so the reset
vector read at `0xFFFC` yields `0x3434`. -/
def cart16 : Cartridge :=
  { mapper := 0, prg_rom := List.replicate 0x4000 0x34, chr_rom := []
    nametable_mirroring := Mirroring.horizontal }

/-- Bus over `cart16`. -/
def bus16 : Bus := { cpu_vram := fun _ => 0, cartridge := cart16 }

/-- CPU over `bus16`. -/
def cpu16 : CPU := CPU.new bus16

/-- Register file produced by resetting `cpu16`. -/
def regs16 : Registers :=
  { a := 0, x := 0, y := 0, status := 0x24, stack_pointer := 0xFD, program_counter := 0x3434 }

/-- Sample 32KB cartridge filled with `0xAB`. -/
def cart32 : Cartridge :=
  { mapper := 0, prg_rom := List.replicate 0x8000 0xAB, chr_rom := []
    nametable_mirroring := Mirroring.horizontal }

/-- Bus over `cart32`. -/
def bus32 : Bus := { cpu_vram := fun _ => 0, cartridge := cart32 }

/-- RAM image for the indirect-JMP sample: a pointer `0x02FF` at address 0,
the dereferenced low byte `0x11` at `0x02FF`, the buggy high byte `0x22` at
`0x0200` (start of the pointer's page), and a second pointer `0x0234` at
address 2. -/
def vramC5 : Nat → Nat := fun i =>
  if i = 0 then 0xFF else if i = 1 then 0x02
  else if i = 0x2FF then 0x11 else if i = 0x200 then 0x22
  else if i = 2 then 0x34 else if i = 3 then 0x02 else 0

/-- CPU over the indirect-JMP sample RAM. -/
def cpuC5 : CPU := CPU.new { cpu_vram := vramC5, cartridge := sampleCartridge }

/-- RAM image for the JSR/RTS sample: a `JSR $0400` instruction at `0x0300`
and an RTS at `0x0400`. -/
def vramJ4 : Nat → Nat := fun i =>
  if i = 0x300 then 0x20 else if i = 0x301 then 0x00 else if i = 0x302 then 0x04
  else if i = 0x400 then 0x60 else 0

/-- CPU about to execute the sample JSR. -/
def cpuJ4 : CPU :=
  { bus := { cpu_vram := vramJ4, cartridge := sampleCartridge }
    registers := { a := 0, x := 0, y := 0, status := 0x24
                   stack_pointer := 0xFD, program_counter := 0x0300 } }

/-- State after the sample JSR: return address `0x0302` pushed at
`0x01FD`/`0x01FC`, stack pointer `0xFB`, PC at the subroutine `0x0400`. -/
def cpuJ4a : CPU :=
  { bus := { cpu_vram := fun i => if i = 0x1FC then 0x02 else if i = 0x1FD then 0x03
               else vramJ4 i
             cartridge := sampleCartridge }
    registers := { a := 0, x := 0, y := 0, status := 0x24
                   stack_pointer := 0xFB, program_counter := 0x0400 } }

/-- State after the sample RTS: PC back at `0x0303`, stack pointer
restored. -/
def cpuJ4b : CPU :=
  { bus := cpuJ4a.bus
    registers := { a := 0, x := 0, y := 0, status := 0x24
                   stack_pointer := 0xFD, program_counter := 0x0303 } }

end NES

namespace NES

/-! Helper lemmas (bit-level arithmetic shared by the claim proofs). -/

theorem and_7FF_eq_mod (x : Nat) : x &&& 0x7FF = x % 0x800 := by
  have h := Nat.and_pow_two_sub_one_eq_mod x 11
  norm_num at h
  exact h

theorem and_FF_eq_mod (x : Nat) : x &&& 0xFF = x % 0x100 := by
  have h := Nat.and_pow_two_sub_one_eq_mod x 8
  norm_num at h
  exact h

theorem and_7FFF_eq_mod (x : Nat) : x &&& 0x7FFF = x % 0x8000 := by
  have h := Nat.and_pow_two_sub_one_eq_mod x 15
  norm_num at h
  exact h

theorem lor_shiftLeft_eight (hi lo : Nat) (h : lo < 256) :
    (hi <<< 8) ||| lo = 256 * hi + lo := by
  apply Nat.eq_of_testBit_eq
  intro j
  rw [Nat.testBit_lor, Nat.testBit_shiftLeft]
  have h2 : 256 * hi + lo = 2 ^ 8 * hi + lo := by norm_num
  rw [h2, Nat.testBit_mul_pow_two_add hi (show lo < 2 ^ 8 by norm_num; exact h) j]
  by_cases hj : j < 8
  · have hle : ¬ (8 ≤ j) := by omega
    simp [hle, hj]
  · have h8 : 8 ≤ j := by omega
    have hlo : Nat.testBit lo j = false :=
      Nat.testBit_lt_two_pow
        (lt_of_lt_of_le h (Nat.pow_le_pow_right (show 0 < 2 by norm_num) h8))
    simp [h8, hj, hlo]

theorem recombine_hi_lo (v : Nat) : ((v >>> 8) <<< 8) ||| (v &&& 0xFF) = v := by
  apply Nat.eq_of_testBit_eq
  intro i
  rw [Nat.testBit_lor, Nat.testBit_shiftLeft, Nat.testBit_shiftRight, Nat.testBit_land]
  by_cases hi : 8 ≤ i
  · have h255 : Nat.testBit 0xFF i = false := by
      have : (0xFF : Nat) < 2 ^ i :=
        lt_of_lt_of_le (by norm_num) (Nat.pow_le_pow_right (by norm_num) hi)
      exact Nat.testBit_lt_two_pow this
    simp [hi, h255, Nat.add_sub_cancel' hi]
  · have h255 : Nat.testBit 0xFF i = true := by
      interval_cases i <;> decide
    simp [hi, h255]

theorem bind_eq_none_of_forall {α β : Type} (x : Option α) (f : α → Option β)
    (h : ∀ y, f y = none) : x >>= f = none := by
  cases x <;> simp [h]

set_option maxRecDepth 16384

theorem flag_extraction : ∀ (s : Fin 256) (v : Bool),
    (flagContains (flagSet s.val FlagN v) FlagC = flagContains s.val FlagC) ∧
    (flagContains (flagSet s.val FlagZ v) FlagC = flagContains s.val FlagC) ∧
    (flagContains (flagSet s.val FlagV v) FlagC = flagContains s.val FlagC) ∧
    (flagContains (flagSet s.val FlagC v) FlagC = v) ∧
    (flagContains (flagSet s.val FlagN v) FlagV = flagContains s.val FlagV) ∧
    (flagContains (flagSet s.val FlagZ v) FlagV = flagContains s.val FlagV) ∧
    (flagContains (flagSet s.val FlagV v) FlagV = v) := by decide

theorem flagSet_lt_256 (s f : Nat) (hs : s < 256) (hf : f < 256) (v : Bool) :
    flagSet s f v < 256 := by
  unfold flagSet
  split
  · have h : s ||| f < 2 ^ 8 :=
      Nat.or_lt_two_pow (by norm_num; exact hs) (by norm_num; exact hf)
    norm_num at h
    exact h
  · exact lt_of_le_of_lt Nat.and_le_left hs

/-- A bus write inside the RAM window always succeeds and only updates the
masked cell. -/
theorem bus_write_ram (b : Bus) (addr d : Nat) (h : addr ≤ 0x1FFF) :
    b.write addr d =
      some { b with cpu_vram := fun i => if i = addr &&& 0x7FF then d else b.cpu_vram i } := by
  unfold Bus.write
  rw [if_neg (by omega : ¬ addr ≥ 0x10000), if_pos h]

/-- A bus read inside the RAM window always succeeds and returns the masked
cell. -/
theorem bus_read_ram (b : Bus) (addr : Nat) (h : addr ≤ 0x1FFF) :
    b.read addr = some (b.cpu_vram (addr &&& 0x7FF)) := by
  unfold Bus.read
  rw [if_neg (by omega : ¬ addr ≥ 0x10000), if_pos h]

/-- A stack-page address is its own physical RAM index. -/
theorem mask_stack (s : Nat) (hs : s < 256) : (0x0100 + s) &&& 0x7FF = 0x0100 + s := by
  rw [and_7FF_eq_mod]
  omega

/-! Claim theorems. -/

/-- C2 (code bug): the claim says header byte 6 with the four-screen bit
set (bit 3) must resolve to FourScreen, but the source compares
`raw[6] & 0x08` against `0x80`, which no byte satisfies: byte 6 = `0x08`
resolves to Horizontal, byte 6 = `0x09` to Vertical, and no header byte at
all can reach FourScreen. -/
theorem c2_fourscreen_unreachable :
    resolveMirroring 0x08 = Mirroring.horizontal ∧
    resolveMirroring 0x09 = Mirroring.vertical ∧
    ∀ b : Fin 256, resolveMirroring b.val ≠ Mirroring.fourScreen := by decide

/-- C6 (confirmed): for every byte `d`, the operand the SBC body hands to
`add_to_a` — the Rust expression `(d as i8).wrapping_neg().wrapping_sub(1)
as u8` — equals the bitwise complement `d ^^^ 0xFF`, and hence the whole
SBC body has exactly the effect of `add_to_a` on the complement. -/
theorem c6_sbc_is_add_of_complement :
    (∀ d : Fin 256, sbcOperand d.val = d.val ^^^ 0xFF) ∧
    (∀ (r : Registers) (d : Fin 256),
      r.subtract_with_borrow d.val = r.add_to_a (d.val ^^^ 0xFF)) := by
  have h : ∀ d : Fin 256, sbcOperand d.val = d.val ^^^ 0xFF := by decide
  exact ⟨h, fun r d => by rw [Registers.subtract_with_borrow, h d]⟩

/-- C10 (code bug): the claim says `CPU::load` completes without a fatal
error after writing the reset vector `0x0600` at `0xFFFC` through the Bus;
but `Bus::write` panics for every address in `0x8000..=0xFFFF`, so `load`
never completes — for every starting state and every program it reaches
the `panic!("Attempt to write to Cartridge ROM space")`. -/
theorem c10_load_always_panics (c : CPU) (program : List Nat) :
    c.load program = none := by
  unfold CPU.load
  refine bind_eq_none_of_forall _ _ ?_
  intro y
  have hw : Bus.write y.bus 0xFFFC (0x0600 &&& 0x00FF) = none := by
    unfold Bus.write
    simp
  show (Bus.write_u16 y.bus 0xFFFC 0x0600) >>= _ = none
  unfold Bus.write_u16
  rw [hw]
  rfl

/-- C7 (confirmed): in `0x0000..=0x1FFF` a read returns exactly the 2KB RAM
cell at `addr &&& 0x7FF`; a write anywhere in that range (mirrored
addresses included) succeeds and touches only the RAM cell `addr &&& 0x7FF`
(cartridge and all other cells unchanged); and after writing the byte at
`addr &&& 0x7FF`, both `addr` and `addr &&& 0x7FF` read it back. -/
theorem c7_ram_mirroring (b : Bus) (addr d : Nat)
    (haddr : addr ≤ 0x1FFF) (hd : d < 256) :
    b.read addr = some (b.cpu_vram (addr &&& 0x7FF)) ∧
    (∃ b', b.write addr d = some b' ∧
      b'.cartridge = b.cartridge ∧
      (∀ i, b'.cpu_vram i = if i = addr &&& 0x7FF then d else b.cpu_vram i) ∧
      b'.read addr = some d ∧
      b'.read (addr &&& 0x7FF) = some d) ∧
    (∃ b', b.write (addr &&& 0x7FF) d = some b' ∧
      b'.read addr = some d ∧
      b'.read (addr &&& 0x7FF) = some d ∧
      b'.cartridge = b.cartridge ∧
      ∀ i, i ≠ addr &&& 0x7FF → b'.cpu_vram i = b.cpu_vram i) := by
  have hmask : addr &&& 0x7FF = addr % 0x800 := and_7FF_eq_mod addr
  have hlo : addr &&& 0x7FF ≤ 0x1FFF := by rw [hmask]; omega
  have hidem : (addr &&& 0x7FF) &&& 0x7FF = addr &&& 0x7FF := by
    rw [hmask, and_7FF_eq_mod]
    omega
  refine ⟨bus_read_ram b addr haddr, ?_, ?_⟩
  · refine ⟨_, bus_write_ram b addr d haddr, rfl, fun i => rfl, ?_, ?_⟩
    · rw [bus_read_ram _ addr haddr]
      dsimp only
      rw [if_pos rfl]
    · rw [bus_read_ram _ (addr &&& 0x7FF) hlo]
      dsimp only
      rw [hidem, if_pos rfl]
  · refine ⟨_, bus_write_ram b (addr &&& 0x7FF) d hlo, ?_, ?_, rfl, ?_⟩
    · rw [bus_read_ram _ addr haddr]
      dsimp only
      rw [hidem, if_pos rfl]
    · rw [bus_read_ram _ (addr &&& 0x7FF) hlo]
      dsimp only
      rw [hidem, if_pos rfl]
    · intro i hi
      dsimp only
      rw [hidem, if_neg hi]

/-- C7 witness: concrete instance at the mirrored address `0x0800`, whose
physical cell is index 0, exercising both the write at the mirrored
address itself and the write at the masked address. -/
theorem c7_witness :
    sampleBus.read 0x0800 = some (sampleBus.cpu_vram (0x0800 &&& 0x7FF)) ∧
    (∃ b', sampleBus.write 0x0800 0xAB = some b' ∧
      b'.cartridge = sampleBus.cartridge ∧
      (∀ i, b'.cpu_vram i = if i = 0x0800 &&& 0x7FF then 0xAB else sampleBus.cpu_vram i) ∧
      b'.read 0x0800 = some 0xAB ∧
      b'.read (0x0800 &&& 0x7FF) = some 0xAB) ∧
    (∃ b', sampleBus.write (0x0800 &&& 0x7FF) 0xAB = some b' ∧
      b'.read 0x0800 = some 0xAB ∧
      b'.read (0x0800 &&& 0x7FF) = some 0xAB ∧
      b'.cartridge = sampleBus.cartridge ∧
      ∀ i, i ≠ 0x0800 &&& 0x7FF → b'.cpu_vram i = sampleBus.cpu_vram i) :=
  c7_ram_mirroring sampleBus 0x0800 0xAB (by norm_num) (by norm_num)

/-- C3 counterexample: the claim asserts that already at power-on
(`Registers::new`) the status byte is `0x24` and SP is `0xFD`; in fact the
constructor sets status `0x34` and SP `0x00`. -/
theorem c3_counterexample :
    ¬ (Registers.new.status = 0x24 ∧ Registers.new.stack_pointer = 0xFD) := by
  decide

/-- C3 amended: the constructor gives A=X=Y=0 with status `0x34`, SP `0x00`
and PC 0 (not the claimed `0x24`/`0xFD`); every `reset` gives A=X=Y=0,
status `0x24`, SP `0xFD`, and PC equal to the 16-bit little-endian value
read through the Bus at `0xFFFC`. -/
theorem c3_power_on_and_reset :
    Registers.new = { a := 0, x := 0, y := 0, status := 0x34
                      stack_pointer := 0x00, program_counter := 0 } ∧
    ∀ (c c' : CPU), c.reset = some c' →
      c'.registers.a = 0 ∧ c'.registers.x = 0 ∧ c'.registers.y = 0 ∧
      c'.registers.status = 0x24 ∧ c'.registers.stack_pointer = 0xFD ∧
      c.bus.read_u16 0xFFFC = some c'.registers.program_counter := by
  refine ⟨rfl, ?_⟩
  intro c c' h
  unfold CPU.reset at h
  cases hv : c.bus.read_u16 0xFFFC with
  | none => rw [hv] at h; exact Option.noConfusion h
  | some pc =>
    rw [hv] at h
    rw [show ((some pc).map (fun pc => { c with registers := c.registers.reset pc }) : Option CPU) = some { c with registers := c.registers.reset pc } from rfl] at h
    cases h
    exact ⟨rfl, rfl, rfl, rfl, rfl, rfl⟩

/-- C3 witness: resetting the concrete CPU over the 16KB `0x34`-filled
cartridge lands on PC `0x3434` with the documented register file. -/
theorem c3_witness :
    cpu16.reset = some { cpu16 with registers := regs16 } ∧
    ((({ cpu16 with registers := regs16 } : CPU).registers.a = 0) ∧
     (({ cpu16 with registers := regs16 } : CPU).registers.x = 0) ∧
     (({ cpu16 with registers := regs16 } : CPU).registers.y = 0) ∧
     (({ cpu16 with registers := regs16 } : CPU).registers.status = 0x24) ∧
     (({ cpu16 with registers := regs16 } : CPU).registers.stack_pointer = 0xFD) ∧
     cpu16.bus.read_u16 0xFFFC =
       some (({ cpu16 with registers := regs16 } : CPU).registers.program_counter)) := by
  have hlen : bus16.cartridge.prg_rom.length = 0x4000 := by
    show (List.replicate 0x4000 0x34).length = 0x4000
    rw [List.length_replicate]
  have hrd : ∀ a : Nat, a ≥ 0x8000 → a ≤ 0xFFFF → (a &&& 0xBFFF) &&& 0x7FFF < 0x4000 →
      Bus.read bus16 a = (List.replicate 0x4000 0x34).get? ((a &&& 0xBFFF) &&& 0x7FFF) := by
    intro a h1 h2 _h3
    unfold Bus.read
    rw [if_neg (by omega : ¬ a ≥ 0x10000), if_neg (by omega : ¬ a ≤ 0x1FFF),
      if_neg (by omega : ¬ a ≤ 0x3FFF), if_pos h1]
    simp only [hlen, if_pos rfl]
    rfl
  have hv : bus16.read_u16 0xFFFC = some 0x3434 := by
    unfold Bus.read_u16
    rw [hrd 0xFFFC (by norm_num) (by norm_num) (by decide)]
    rw [show ((0xFFFC &&& 0xBFFF) &&& 0x7FFF : Nat) = 0x3FFC from by rfl]
    rw [List.get?_eq_getElem?, List.getElem?_replicate]
    norm_num
    rw [hrd 0xFFFD (by norm_num) (by norm_num) (by decide)]
    rw [show ((0xFFFD &&& 0xBFFF) &&& 0x7FFF : Nat) = 0x3FFD from by rfl]
    rw [List.get?_eq_getElem?, List.getElem?_replicate]
    norm_num
    decide
  have h : cpu16.reset = some { cpu16 with registers := regs16 } := by
    unfold CPU.reset
    rw [show cpu16.bus = bus16 from rfl, hv]
    rfl
  exact ⟨h, c3_power_on_and_reset.2 cpu16 _ h⟩

/-- Status-byte extraction through the exact C/V/Z/N `flagSet` chain that
`add_to_a` builds: the C and V flags of the final byte are the values that
were set, regardless of the Z/N values set afterwards. -/
theorem status_extract_fin : ∀ (s : Fin 256) (c v z n : Bool),
    flagContains (flagSet (flagSet (flagSet (flagSet s.val FlagC c) FlagV v) FlagZ z) FlagN n)
      FlagC = c ∧
    flagContains (flagSet (flagSet (flagSet (flagSet s.val FlagC c) FlagV v) FlagZ z) FlagN n)
      FlagV = v := by decide

/-- Nat-form corollary of `status_extract_fin`. -/
theorem status_extract (s : Nat) (hs : s < 256) (c v z n : Bool) :
    flagContains (flagSet (flagSet (flagSet (flagSet s FlagC c) FlagV v) FlagZ z) FlagN n)
      FlagC = c ∧
    flagContains (flagSet (flagSet (flagSet (flagSet s FlagC c) FlagV v) FlagZ z) FlagN n)
      FlagV = v :=
  status_extract_fin ⟨s, hs⟩ c v z n

/-- C1 (confirmed): `add_to_a` with accumulator `a`, operand `b` and
incoming carry bit `cb` produces accumulator `(a + b + c) % 256`, Carry
exactly when the 16-bit sum exceeds `0xFF`, and Overflow exactly when
`(b ^ result) & (a ^ result) & 0x80` is nonzero — with `a` the OLD
accumulator value. -/
theorem c1_add_to_a_spec (r : Registers) (b : Nat) (cb : Bool)
    (ha : r.a < 256) (hb : b < 256) (hst : r.status < 256)
    (hc : flagContains r.status FlagC = cb) :
    (r.add_to_a b).a = (r.a + b + (if cb then 1 else 0)) % 256 ∧
    flagContains (r.add_to_a b).status FlagC
      = decide (r.a + b + (if cb then 1 else 0) > 255) ∧
    flagContains (r.add_to_a b).status FlagV
      = decide ((b ^^^ (r.a + b + (if cb then 1 else 0)) % 256) &&&
          (r.a ^^^ (r.a + b + (if cb then 1 else 0)) % 256) &&& 0x80 ≠ 0) := by
  unfold Registers.add_to_a Registers.set_nz_flags
  rw [hc]
  refine ⟨rfl, ?_, ?_⟩
  · exact (status_extract r.status hst _ _ _ _).1
  · exact (status_extract r.status hst _ _ _ _).2

/-- C1 witness: `80 + 80` with carry clear gives 160, no carry out, and a
signed overflow (positive + positive = negative). -/
theorem c1_witness :
    ((Registers.mk 80 0 0 0x34 0 0).add_to_a 80).a = 160 ∧
    flagContains ((Registers.mk 80 0 0 0x34 0 0).add_to_a 80).status FlagC = false ∧
    flagContains ((Registers.mk 80 0 0 0x34 0 0).add_to_a 80).status FlagV = true :=
  c1_add_to_a_spec ⟨80, 0, 0, 0x34, 0, 0⟩ 80 false
    (by norm_num) (by norm_num) (by norm_num) (by decide)

/-- Masking a 16-bit value with `0xBFFF` clears bit 14 and keeps the rest:
arithmetically, the low 14 bits plus bit 15. -/
theorem and_BFFF (x : Nat) (hx : x < 0x10000) :
    x &&& 0xBFFF = x % 0x4000 + (x / 0x8000) * 0x8000 := by
  have hrw : x % 0x4000 + (x / 0x8000) * 0x8000 = 2 ^ 15 * (x / 2 ^ 15) + x % 2 ^ 14 := by
    norm_num; ring
  rw [hrw]
  apply Nat.eq_of_testBit_eq
  intro j
  rw [Nat.testBit_land,
    Nat.testBit_mul_pow_two_add (x / 2 ^ 15) (show x % 2 ^ 14 < 2 ^ 15 by
      have := Nat.mod_lt x (show 0 < 2 ^ 14 by norm_num)
      omega) j]
  rcases lt_or_ge j 14 with hj | hj
  · have h1 : Nat.testBit 0xBFFF j = true := by
      have h0 : Nat.testBit 0xBFFF j = Nat.testBit (0xBFFF % 2 ^ 14) j := by
        rw [Nat.testBit_mod_two_pow]
        simp [hj]
      rw [h0]
      norm_num
      rw [show (0x3FFF : Nat) = 2 ^ 14 - 1 by norm_num, Nat.testBit_two_pow_sub_one]
      simp [hj]
    have h2 : Nat.testBit (x % 2 ^ 14) j = Nat.testBit x j := by
      rw [Nat.testBit_mod_two_pow]
      simp [hj]
    rw [if_pos (by omega : j < 15), h1, h2, Bool.and_true]
  rcases eq_or_lt_of_le hj with hj14 | hj15
  · rw [if_pos (by omega : j < 15)]
    have h1 : Nat.testBit 0xBFFF j = false := by rw [← hj14]; decide
    have h2 : Nat.testBit (x % 2 ^ 14) j = false := by
      rw [Nat.testBit_mod_two_pow]
      simp [show ¬ (j < 14) by omega]
    rw [h1, h2, Bool.and_false]
  rcases eq_or_lt_of_le hj15 with hj15' | hj16
  · rw [if_neg (by omega : ¬ j < 15)]
    have h1 : Nat.testBit 0xBFFF j = true := by rw [← hj15']; decide
    have h2 : Nat.testBit (x / 2 ^ 15) (j - 15) = Nat.testBit x j := by
      rw [← Nat.shiftRight_eq_div_pow, Nat.testBit_shiftRight]
      congr 1
      omega
    rw [h1, h2, Bool.and_true]
  · rw [if_neg (by omega : ¬ j < 15)]
    have h1 : Nat.testBit 0xBFFF j = false :=
      Nat.testBit_lt_two_pow (lt_of_lt_of_le (by norm_num)
        (Nat.pow_le_pow_right (by norm_num) (by omega : 16 ≤ j)))
    have h2 : Nat.testBit (x / 2 ^ 15) (j - 15) = false := by
      apply Nat.testBit_lt_two_pow
      have hdiv : x / 2 ^ 15 < 2 := by omega
      calc x / 2 ^ 15 < 2 := hdiv
        _ ≤ 2 ^ (j - 15) := by
            have h15 : (1 : Nat) ≤ j - 15 := by omega
            calc (2 : Nat) = 2 ^ 1 := by norm_num
              _ ≤ 2 ^ (j - 15) := Nat.pow_le_pow_right (by norm_num) h15
    rw [h1, h2, Bool.and_false]

/-- C8 (confirmed): with a 16KB PRG ROM, `0x8000 + k` and `0xC000 + k`
both read `prg_rom[k]` (bank mirroring); with a 32KB PRG ROM, every read
in `0x8000..=0xFFFF` indexes `prg_rom` at `addr &&& 0x7FFF` with no
mirroring. -/
theorem c8_prg_rom_mirroring (b : Bus) :
    (b.cartridge.prg_rom.length = 16384 →
      ∀ k, k < 0x4000 →
        b.read (0x8000 + k) = b.cartridge.prg_rom.get? k ∧
        b.read (0xC000 + k) = b.cartridge.prg_rom.get? k) ∧
    (b.cartridge.prg_rom.length = 32768 →
      ∀ addr, 0x8000 ≤ addr → addr ≤ 0xFFFF →
        b.read addr = b.cartridge.prg_rom.get? (addr &&& 0x7FFF)) := by
  constructor
  · intro h16 k hk
    have e1 : ((0x8000 + k) &&& 0xBFFF) &&& 0x7FFF = k := by
      rw [and_BFFF _ (by omega), and_7FFF_eq_mod]
      omega
    have e2 : ((0xC000 + k) &&& 0xBFFF) &&& 0x7FFF = k := by
      rw [and_BFFF _ (by omega), and_7FFF_eq_mod]
      omega
    constructor
    · unfold Bus.read
      rw [if_neg (by omega : ¬ 0x8000 + k ≥ 0x10000),
        if_neg (by omega : ¬ 0x8000 + k ≤ 0x1FFF),
        if_neg (by omega : ¬ 0x8000 + k ≤ 0x3FFF),
        if_pos (by omega : 0x8000 + k ≥ 0x8000)]
      simp only [h16, if_pos rfl, if_true, e1]
    · unfold Bus.read
      rw [if_neg (by omega : ¬ 0xC000 + k ≥ 0x10000),
        if_neg (by omega : ¬ 0xC000 + k ≤ 0x1FFF),
        if_neg (by omega : ¬ 0xC000 + k ≤ 0x3FFF),
        if_pos (by omega : 0xC000 + k ≥ 0x8000)]
      simp only [h16, if_pos rfl, if_true, e2]
  · intro h32 addr h1 h2
    unfold Bus.read
    rw [if_neg (by omega : ¬ addr ≥ 0x10000),
      if_neg (by omega : ¬ addr ≤ 0x1FFF),
      if_neg (by omega : ¬ addr ≤ 0x3FFF),
      if_pos h1, if_neg (by rw [h32]; norm_num)]

/-- C8 witness: concrete reads on the 16KB sample cartridge (offset 5 in
both banks) and on the 32KB sample cartridge (address `0x9234`). -/
theorem c8_witness :
    (bus16.read (0x8000 + 5) = bus16.cartridge.prg_rom.get? 5 ∧
     bus16.read (0xC000 + 5) = bus16.cartridge.prg_rom.get? 5) ∧
    bus32.read 0x9234 = bus32.cartridge.prg_rom.get? (0x9234 &&& 0x7FFF) := by
  have hlen16 : bus16.cartridge.prg_rom.length = 16384 := by
    show (List.replicate 0x4000 0x34).length = 16384
    rw [List.length_replicate]
  have hlen32 : bus32.cartridge.prg_rom.length = 32768 := by
    show (List.replicate 0x8000 0xAB).length = 32768
    rw [List.length_replicate]
  exact ⟨(c8_prg_rom_mirroring bus16).1 hlen16 5 (by norm_num),
    (c8_prg_rom_mirroring bus32).2 hlen32 0x9234 (by norm_num) (by norm_num)⟩

/-- C9 counterexample: an input shorter than the 16-byte header whose
magic prefix is valid.  The claim demands a format error returned to the
caller; the code instead panics at the unchecked `raw[7]` access (`none`
in this embedding — not an `Except.error`). -/
theorem c9_counterexample : Cartridge.new [0x4E, 0x45, 0x53, 0x1A] = none := rfl

/-- C9 amended: an input of at least 4 bytes whose first 4 bytes mismatch
the magic gets the format error; inputs shorter than 4 bytes, or shorter
than the header/trainer/ROM sizes require, panic instead of returning an
error; a well-formed input with byte4 = N and byte5 = M yields a cartridge
with `prg_rom` of length `16384*N`, `chr_rom` of length `8192*M`, sliced
starting 512 bytes later exactly when the trainer bit (byte 6, bit 2) is
set. -/
theorem c9_cartridge_load :
    (∀ raw : List Nat, 4 ≤ raw.length → raw.take 4 ≠ MAGIC_NUMBERS →
      Cartridge.new raw = some (Except.error "File is not in iNES file format")) ∧
    (∀ (raw : List Nat) (N M : Nat) (t : Bool),
      raw.take 4 = MAGIC_NUMBERS →
      ((raw.getD 7 0) >>> 2) &&& 0x03 = 0 →
      raw.getD 4 0 = N → raw.getD 5 0 = M →
      ((raw.getD 6 0) &&& 0x04 == 0x04) = t →
      16 + (if t then 512 else 0) + 16384 * N + 8192 * M ≤ raw.length →
      ∃ c, Cartridge.new raw = some (Except.ok c) ∧
        c.prg_rom.length = 16384 * N ∧
        c.chr_rom.length = 8192 * M ∧
        c.prg_rom = (raw.drop (16 + if t then 512 else 0)).take (16384 * N) ∧
        c.chr_rom = (raw.drop (16 + (if t then 512 else 0) + 16384 * N)).take (8192 * M)) := by
  constructor
  · intro raw h4 hm
    unfold Cartridge.new
    rw [if_neg (by omega : ¬ raw.length < 4), if_pos hm]
  · intro raw N M t hm h7 hN hM ht hlen
    unfold Cartridge.new
    rw [if_neg (by omega : ¬ raw.length < 4), if_neg (not_not_intro hm),
      if_neg (by omega : ¬ raw.length < 8), if_neg (not_not_intro h7), hN, hM, ht]
    have hsplit : (if t then 512 else 0) + 16384 * N = (if t then 512 else 0) + N * 16384 := by
      rw [Nat.mul_comm]
    rw [if_neg (by
      cases t <;> simp only [Bool.false_eq_true, if_false, if_true] at hlen ⊢ <;> omega)]
    rw [if_neg (by
      cases t <;> simp only [Bool.false_eq_true, if_false, if_true] at hlen ⊢ <;> omega)]
    refine ⟨_, rfl, ?_, ?_, ?_, ?_⟩
    · rw [List.length_take, List.length_drop]
      cases t <;> simp only [Bool.false_eq_true, if_false, if_true] at hlen ⊢ <;> omega
    · rw [List.length_take, List.length_drop]
      cases t <;> simp only [Bool.false_eq_true, if_false, if_true] at hlen ⊢ <;> omega
    · rw [Nat.mul_comm]
    · rw [Nat.mul_comm 8192 M, Nat.mul_comm 16384 N]

/-- C9 witness: the mismatching 4-byte input `[1,2,3,4]` gets the format
error, and a minimal well-formed header (N = M = 0, no trainer) loads into
empty PRG and CHR ROMs. -/
theorem c9_witness :
    Cartridge.new [1, 2, 3, 4] = some (Except.error "File is not in iNES file format") ∧
    ∃ c, Cartridge.new [0x4E, 0x45, 0x53, 0x1A, 0, 0, 0, 0, 0, 0, 0, 0, 0, 0, 0, 0]
        = some (Except.ok c) ∧
      c.prg_rom.length = 16384 * 0 ∧
      c.chr_rom.length = 8192 * 0 ∧
      c.prg_rom = (([0x4E, 0x45, 0x53, 0x1A, 0, 0, 0, 0, 0, 0, 0, 0, 0, 0, 0, 0] :
        List Nat).drop (16 + if false then 512 else 0)).take (16384 * 0) ∧
      c.chr_rom = (([0x4E, 0x45, 0x53, 0x1A, 0, 0, 0, 0, 0, 0, 0, 0, 0, 0, 0, 0] :
        List Nat).drop (16 + (if false then 512 else 0) + 16384 * 0)).take (8192 * 0) :=
  ⟨c9_cartridge_load.1 [1, 2, 3, 4] (by norm_num) (by decide),
   c9_cartridge_load.2 [0x4E, 0x45, 0x53, 0x1A, 0, 0, 0, 0, 0, 0, 0, 0, 0, 0, 0, 0]
     0 0 false (by decide) (by decide) (by decide) (by decide) (by decide) (by norm_num)⟩

/-- Reduction of a monadic bind on a present option (definitional). -/
theorem some_bind_monad {α β : Type} (a : α) (f : α → Option β) : (some a >>= f) = f a := rfl

/-- Reduction of `pure` into `some` (definitional). -/
theorem pure_eq_some {α : Type} (a : α) : (pure a : Option α) = some a := rfl

/-- Reduction of `Option.map` on a present option (definitional). -/
theorem map_some_opt {α β : Type} (a : α) (f : α → β) : (some a).map f = some (f a) := rfl

/-- Characterisation of a successful bind. -/
theorem bind_eq_some_monad {α β : Type} {x : Option α} {f : α → Option β} {b : β} :
    (x >>= f) = some b ↔ ∃ a, x = some a ∧ f a = some b := by
  cases x <;> simp

/-- C5 (confirmed): indirect (JMP-only) address resolution.  When the
pointer's low byte is `0xFF` the resolved address is built from the low
byte at the pointer and the high byte at `pointer &&& 0xFF00` (start of the
same page); otherwise it is the ordinary little-endian 16-bit read at the
pointer. -/
theorem c5_indirect_page_bug (c : CPU) (base p : Nat)
    (hp : c.bus.read_u16 base = some p) :
    ((p % 256 = 0xFF) → ∀ lo hi : Nat, lo < 256 →
      c.bus.read p = some lo → c.bus.read (p &&& 0xFF00) = some hi →
      c.get_absolute_address AddressingMode.Indirect base = some (256 * hi + lo)) ∧
    ((p % 256 ≠ 0xFF) →
      c.get_absolute_address AddressingMode.Indirect base = c.bus.read_u16 p) := by
  have hmask : p &&& 0x00FF = p % 256 := by
    have h := and_FF_eq_mod p
    norm_num at h ⊢
    exact h
  constructor
  · intro hff lo hi hlo hrlo hrhi
    have hcond : p &&& 0x00FF = 0x00FF := by rw [hmask]; omega
    unfold CPU.get_absolute_address
    rw [hp, some_bind_monad]
    dsimp only
    rw [if_pos hcond, hrlo, some_bind_monad, hrhi, some_bind_monad, pure_eq_some,
      lor_shiftLeft_eight hi lo hlo]
  · intro hne
    have hcond : ¬ (p &&& 0x00FF = 0x00FF) := by rw [hmask]; omega
    unfold CPU.get_absolute_address
    rw [hp, some_bind_monad]
    dsimp only
    rw [if_neg hcond]

/-- C5 witness: the pointer `0x02FF` (low byte `0xFF`) dereferences to
`0x2211` taking the high byte from `0x0200`, and the pointer `0x0234`
dereferences by a plain 16-bit read. -/
theorem c5_witness :
    cpuC5.get_absolute_address AddressingMode.Indirect 0 = some (256 * 0x22 + 0x11) ∧
    cpuC5.get_absolute_address AddressingMode.Indirect 2 = cpuC5.bus.read_u16 0x0234 :=
  ⟨(c5_indirect_page_bug cpuC5 0 0x2FF (by decide)).1 (by norm_num) 0x11 0x22
      (by norm_num) (by decide) (by decide),
   (c5_indirect_page_bug cpuC5 2 0x0234 (by decide)).2 (by norm_num)⟩

/-- RTS half of the JSR/RTS round-trip: from the state a JSR leaves behind
(two pushed bytes of `v`, stack pointer decremented twice from `S`),
executing one RTS step sets PC to `(v + 1) % 65536` and restores the stack
pointer to `S`. -/
theorem rts_step (vram : Nat → Nat) (cart : Cartridge) (a x y st : Nat)
    (S v pcR : Nat) (c₂ : CPU) (hS : S < 256)
    (hop2 : Bus.read
      ⟨fun i => if i = 0x0100 + (S + 255) % 256 then v &&& 0xFF
        else if i = 0x0100 + S then v >>> 8 else vram i, cart⟩ pcR = some 0x60)
    (h2 : (CPU.mk
      ⟨fun i => if i = 0x0100 + (S + 255) % 256 then v &&& 0xFF
        else if i = 0x0100 + S then v >>> 8 else vram i, cart⟩
      (Registers.mk a x y st (((S + 255) % 256 + 255) % 256) pcR)).stepOne = some c₂) :
    c₂.registers.program_counter = (v + 1) % 65536 ∧
    c₂.registers.stack_pointer = S := by
  unfold CPU.stepOne at h2
  dsimp only at h2
  rw [hop2, some_bind_monad] at h2
  rw [show opcodeLength 0x60 = some 1 from rfl, some_bind_monad] at h2
  rw [if_neg (by norm_num : ¬ (0x60 : Nat) = 0x20), if_pos rfl] at h2
  unfold CPU.return_from_subroutine CPU.stack_pop_u16 CPU.stack_pop at h2
  dsimp only at h2
  rw [show ((((S + 255) % 256 + 255) % 256) + 1) % 256 = (S + 255) % 256 from by omega] at h2
  rw [bus_read_ram _ _ (show 0x0100 + (S + 255) % 256 ≤ 0x1FFF from by omega)] at h2
  dsimp only at h2
  rw [mask_stack ((S + 255) % 256) (by omega)] at h2
  rw [if_pos rfl] at h2
  rw [map_some_opt, some_bind_monad] at h2
  dsimp only at h2
  rw [show (((S + 255) % 256) + 1) % 256 = S from by omega] at h2
  rw [bus_read_ram _ _ (show 0x0100 + S ≤ 0x1FFF from by omega)] at h2
  dsimp only at h2
  rw [mask_stack S hS] at h2
  rw [if_neg (show (0x0100 + S : Nat) ≠ 0x0100 + (S + 255) % 256 from by omega)] at h2
  rw [if_pos rfl] at h2
  rw [map_some_opt, some_bind_monad] at h2
  dsimp only at h2
  rw [pure_eq_some, some_bind_monad] at h2
  dsimp only at h2
  rw [recombine_hi_lo v] at h2
  rw [pure_eq_some, some_bind_monad] at h2
  dsimp only at h2
  by_cases hcc : (pcR + 1) % 65536 = (v + 1) % 65536
  · rw [if_pos hcc] at h2
    injection h2 with h2
    subst h2
    dsimp only
    constructor
    · omega
    · rfl
  · rw [if_neg hcc] at h2
    injection h2 with h2
    subst h2
    exact ⟨rfl, rfl⟩

/-- C4 (confirmed): executing a JSR (opcode `0x20`, which pushes
`PC_after_opcode + 2 - 1`, high byte then low byte, before reading its
operand) and then the RTS (opcode `0x60`, which pulls low then high and
adds 1) at the jump target leaves PC at `P + 3 (mod 2^16)` and restores the
stack pointer to its pre-JSR value, for every starting PC and every target
address. -/
theorem c4_jsr_rts_roundtrip (c c₁ c₂ : CPU)
    (hpc : c.registers.program_counter < 65536)
    (hsp : c.registers.stack_pointer < 256)
    (hop1 : c.bus.read c.registers.program_counter = some 0x20)
    (h1 : c.stepOne = some c₁)
    (hop2 : c₁.bus.read c₁.registers.program_counter = some 0x60)
    (h2 : c₁.stepOne = some c₂) :
    c₂.registers.program_counter = (c.registers.program_counter + 3) % 65536 ∧
    c₂.registers.stack_pointer = c.registers.stack_pointer := by
  obtain ⟨⟨vram, cart⟩, a, x, y, st, sp, pc⟩ := c
  dsimp only at hpc hsp hop1 ⊢
  unfold CPU.stepOne at h1
  dsimp only at h1
  rw [hop1, some_bind_monad] at h1
  rw [show opcodeLength 0x20 = some 3 from rfl, some_bind_monad] at h1
  rw [if_pos rfl] at h1
  unfold CPU.jump_to_new_location_saving_return_address CPU.stack_push_u16
    CPU.stack_push at h1
  dsimp only at h1
  rw [bus_write_ram _ _ _ (show 0x0100 + sp ≤ 0x1FFF from by omega)] at h1
  rw [some_bind_monad] at h1
  dsimp only at h1
  rw [pure_eq_some, some_bind_monad] at h1
  dsimp only at h1
  rw [bus_write_ram _ _ _ (show 0x0100 + (sp + 255) % 256 ≤ 0x1FFF from by omega)] at h1
  rw [some_bind_monad] at h1
  dsimp only at h1
  rw [pure_eq_some, some_bind_monad] at h1
  dsimp only at h1
  rw [mask_stack sp hsp] at h1
  rw [mask_stack ((sp + 255) % 256) (by omega)] at h1
  unfold CPU.get_operand_address CPU.get_absolute_address at h1
  dsimp only at h1
  rw [bind_eq_some_monad] at h1
  obtain ⟨cJ, hJ, h1⟩ := h1
  rw [bind_eq_some_monad] at hJ
  obtain ⟨X, hX, hJ⟩ := hJ
  rw [pure_eq_some] at hJ
  injection hJ with hJ
  subst hJ
  dsimp only at h1
  by_cases hbr : (pc + 1) % 65536 = X
  · rw [if_pos hbr] at h1
    rw [pure_eq_some] at h1
    injection h1 with h1
    subst h1
    dsimp only at hop2 h2
    have hr := rts_step vram cart a x y st sp (((pc + 1) % 65536 + 2 - 1) % 65536)
      ((X + (3 - 1)) % 65536) c₂ hsp hop2 h2
    exact ⟨by rw [hr.1]; omega, hr.2⟩
  · rw [if_neg hbr] at h1
    rw [pure_eq_some] at h1
    injection h1 with h1
    subst h1
    dsimp only at hop2 h2
    have hr := rts_step vram cart a x y st sp (((pc + 1) % 65536 + 2 - 1) % 65536)
      X c₂ hsp hop2 h2
    exact ⟨by rw [hr.1]; omega, hr.2⟩

/-- C4 witness: the concrete JSR at `0x0300` to `0x0400` followed by the
RTS there returns to `0x0303` with the stack pointer restored to `0xFD`. -/
theorem c4_witness :
    cpuJ4b.registers.program_counter = (cpuJ4.registers.program_counter + 3) % 65536 ∧
    cpuJ4b.registers.stack_pointer = cpuJ4.registers.stack_pointer :=
  c4_jsr_rts_roundtrip cpuJ4 cpuJ4a cpuJ4b
    (by show (0x0300 : Nat) < 65536; norm_num)
    (by show (0xFD : Nat) < 256; norm_num) rfl rfl rfl rfl

end NES
